import Mathlib

/-!
Verification model of the qmd-claude-history pipeline (src/install.ts).

Two pieces of the source are embedded:

1. The bash converter script embedded as the CONVERTER_SCRIPT constant
   (install.ts lines 21-81).  Its per-session and per-group logic is
   translated into pure functions over an abstract list-of-records view
   of a JSONL session log.  The script runs under set -e; the arithmetic
   commands ((project_count++)) and ((converted_count++)) return exit
   status 1 when the counter's previous value is 0, which aborts the
   script.  That abort semantics is modelled explicitly.

2. The TypeScript function createQmdCollections (install.ts lines
   446-494), translated into a pure fold over the list of project
   subdirectories, with the external qmd command line modelled as an
   oracle deciding success or failure of each invocation and an explicit
   engine collection-set state.

JSON records are modelled with string-typed fields (sessionId, slug,
timestamp, cwd are strings or absent/null; message.content is absent, a
string, or an array of fragments each with an optional text field).
-/

/-- First n characters of a string, as bash substring expansion,
jq slice and cut produce for the inputs in question. -/
def stringTake (n : Nat) (s : String) : String :=
  String.mk (s.data.take n)

/-- Substring test: needle occurs contiguously in hay.
Models the bash pattern match [[ "$cwd" == *needle* ]]. -/
def containsSub (needle hay : List Char) : Bool :=
  (List.range (hay.length + 1)).any (fun i => needle.isPrefixOf (hay.drop i))

/-- bash basename: strip trailing slashes, keep the last path component;
a path of only slashes gives "/", the empty string gives "". -/
def basename (s : String) : String :=
  let r := s.data.reverse.dropWhile (fun c => c == '/')
  if r.isEmpty then (if s.data.any (fun c => c == '/') then "/" else s)
  else String.mk ((r.takeWhile (fun c => c != '/')).reverse)

/-- The disposable-context test of CONVERTER_SCRIPT line 44:
[[ "$cwd" == *".ralphy-worktrees"* ]] || [[ "$cwd" == *"/agent-"* ]].
With bash left-associative and/or chaining, the skip branch runs exactly
when either substring occurs. -/
def hasMarker (cwd : String) : Bool :=
  containsSub ".ralphy-worktrees".data cwd.data || containsSub "/agent-".data cwd.data

/-- message.content of a record: absent/null, a plain string, or an array
of fragments; a fragment carries an optional text field (none models a
fragment without .text, e.g. a tool invocation). -/
inductive JContent where
  | absent : JContent
  | str : String → JContent
  | arr : List (Option String) → JContent
deriving DecidableEq

/-- One parsed JSONL record, with the fields CONVERTER_SCRIPT reads. -/
structure Record where
  type : Option String
  content : JContent
  cwd : Option String
  sessionId : Option String
  slug : Option String
  timestamp : Option String
deriving DecidableEq

/-- One line of a session log file: either a record that parses as JSON
or a malformed line (jq reports a parse error and halts on it). -/
inductive RawLine where
  | mal : RawLine
  | parsed : Record → RawLine
deriving DecidableEq

/-- A session log file: filename stem (basename without .jsonl) and its
lines. -/
structure SessionFile where
  stem : String
  lines : List RawLine
deriving DecidableEq

/-- Result of rendering one record with the jq body program
(CONVERTER_SCRIPT line 70): an emitted string, no output (empty), or a
jq runtime error (string + array), after which jq skips the record and
continues, exiting nonzero at the end. -/
inductive ROut where
  | out : String → ROut
  | emptyOut : ROut
  | errSkip : ROut
deriving DecidableEq

/-- The jq body program of CONVERTER_SCRIPT line 70 applied to one record:
if .type == "user" then "## User\n\n" + (.message.content // "") + "\n"
elif .type == "assistant" then "## Assistant\n\n" +
  ((.message.content // []) | if type == "array"
     then map(.text // empty) | join("\n") else . end) + "\n"
else empty end.
A user record whose content is an array makes string + array a jq runtime
error. -/
def renderRecord (r : Record) : ROut :=
  if r.type = some "user" then
    match r.content with
    | JContent.absent => ROut.out ("## User\n\n" ++ "" ++ "\n")
    | JContent.str s => ROut.out ("## User\n\n" ++ s ++ "\n")
    | JContent.arr _ => ROut.errSkip
  else if r.type = some "assistant" then
    match r.content with
    | JContent.absent => ROut.out ("## Assistant\n\n" ++ "" ++ "\n")
    | JContent.str s => ROut.out ("## Assistant\n\n" ++ s ++ "\n")
    | JContent.arr fr =>
        ROut.out ("## Assistant\n\n" ++ String.intercalate "\n" (fr.filterMap id) ++ "\n")
  else ROut.emptyOut

/-- Run jq -r over the whole file: raw output (each produced string is
printed followed by a newline) and a success flag.  A malformed line is a
parse error: jq halts there (earlier output is kept) and exits nonzero.
A runtime error skips the record, keeps going, and makes the final exit
status nonzero. -/
def runJqBody : List RawLine → String × Bool
  | [] => ("", true)
  | RawLine.mal :: _ => ("", false)
  | RawLine.parsed r :: rest =>
    let acc := runJqBody rest
    match renderRecord r with
    | ROut.out t => (t ++ "\n" ++ acc.1, acc.2)
    | ROut.emptyOut => acc
    | ROut.errSkip => (acc.1, false)

/-- The body block of CONVERTER_SCRIPT line 70: the jq output, followed by
the fallback echo "Error parsing $jsonl" when jq exited nonzero. -/
def bodyOf (lines : List RawLine) (path : String) : String :=
  let r := runJqBody lines
  if r.2 then r.1 else r.1 ++ "Error parsing " ++ path ++ "\n"

/-- Session metadata extracted from the first line
(CONVERTER_SCRIPT lines 51-58). -/
structure Meta where
  slug : String
  date : String
  sid : String
  shortId : String
deriving DecidableEq

/-- Metadata extraction from the first line of the file: sessionId via
.sessionId // empty, slug via .slug // "unknown", date as the first 10
characters of .timestamp with fallback to the current date, and the
8-character id prefix with fallback to the first 8 characters of the
filename stem.  An empty file leaves all jq outputs empty, so slug and
sid are empty, the date falls back to today and the short id to the stem.
A malformed first line is handled by the caller (set -e aborts). -/
def metaOf (today stem : String) : List RawLine → Meta
  | RawLine.parsed r :: _ =>
    let sid := r.sessionId.getD ""
    let slug := r.slug.getD "unknown"
    let date0 := match r.timestamp with
      | some t => stringTake 10 t
      | none => ""
    let date := if date0 = "" then today else date0
    let sh0 := stringTake 8 sid
    let shortId := if sh0 = "" then stringTake 8 stem else sh0
    ⟨slug, date, sid, shortId⟩
  | _ => ⟨"", today, "", stringTake 8 stem⟩

/-- Output filename (CONVERTER_SCRIPT line 59):
md_file = "${session_date}-${short_id}.md". -/
def mdName (m : Meta) : String :=
  m.date ++ "-" ++ m.shortId ++ ".md"

/-- The header block echoed at CONVERTER_SCRIPT lines 62-69. -/
def headerOf (m : Meta) (cwd : String) : String :=
  "# Claude Session: " ++ m.slug ++ "\n\n- **Date**: " ++ m.date ++
    "\n- **Session ID**: " ++ m.sid ++ "\n- **Project**: " ++ cwd ++ "\n\n---\n\n"

/-- The converted document of one session: its markdown filename and the
full file content (header followed by body) written at line 71. -/
def sessionDoc (today cwd dir : String) (f : SessionFile) : String × String :=
  let m := metaOf today f.stem f.lines
  (mdName m, headerOf m cwd ++ bodyOf f.lines (dir ++ "/" ++ f.stem ++ ".jsonl"))

/-- The dry-run report line of CONVERTER_SCRIPT line 60:
"  Would convert: $(basename $jsonl) -> $(basename $md_file)". -/
def wouldLine (stem : String) (m : Meta) : String :=
  "  Would convert: " ++ stem ++ ".jsonl -> " ++ mdName m

/-- True when the first line of the file is malformed JSON: then the
command substitution at line 52 fails (jq parse error, exit 2) and set -e
aborts the whole script. -/
def isMalHead : List RawLine → Bool
  | RawLine.mal :: _ => true
  | _ => false

/-- State of the per-session loop (CONVERTER_SCRIPT lines 49-73): the
documents written so far, the dry-run report lines, the global
converted_count value, and whether set -e aborted the run. -/
structure LoopState where
  docs : List (String × String)
  report : List String
  cc : Nat
  aborted : Bool
deriving DecidableEq

/-- The per-session loop.  For each .jsonl file: abort if the first line
is malformed (set -e on the metadata command substitutions); in dry-run
mode emit the report line and continue (before any write or increment);
otherwise write the document and then execute ((converted_count++)),
which under set -e aborts when the counter's previous value is 0. -/
def sessionLoop (dry : Bool) (today cwd dir : String) :
    Nat → List SessionFile → LoopState
  | cc, [] => ⟨[], [], cc, false⟩
  | cc, f :: fs =>
    if isMalHead f.lines then ⟨[], [], cc, true⟩
    else
      let m := metaOf today f.stem f.lines
      if dry then
        let st := sessionLoop dry today cwd dir cc fs
        { st with report := wouldLine f.stem m :: st.report }
      else
        let d := sessionDoc today cwd dir f
        if cc = 0 then ⟨[d], [], cc, true⟩
        else
          let st := sessionLoop dry today cwd dir (cc + 1) fs
          { st with docs := d :: st.docs }

/-- First cwd printed by
head -5 file | jq -r 'select(.cwd != null) | .cwd' 2>/dev/null | head -1
over a list of lines: jq prints .cwd of each record that has one, halting
at the first malformed line; head -1 keeps the first printed value.  The
empty string models "no output". -/
def firstCwd : List RawLine → String
  | [] => ""
  | RawLine.mal :: _ => ""
  | RawLine.parsed r :: rest =>
    match r.cwd with
    | some c => c
    | none => firstCwd rest

/-- cwd extraction of CONVERTER_SCRIPT line 42: only the first five lines
of the representative session log are consulted. -/
def extractCwd (ls : List RawLine) : String :=
  firstCwd (ls.take 5)

/-- Outcome of processing one log group (the loop body, lines 40-74):
whether the missing-cwd warning fired, whether the group was skipped as
an agent worktree, the project output directory created by mkdir -p (none
when the group was skipped before line 47), the documents written, the
dry-run report, the outgoing converted_count, and the set -e abort flag. -/
structure GroupResult where
  warned : Bool
  agentSkipped : Bool
  projectDir : Option String
  docs : List (String × String)
  report : List String
  ccOut : Nat
  aborted : Bool
deriving DecidableEq

/-- The per-group logic of CONVERTER_SCRIPT lines 40-74, entered with the
current converted_count.  An empty cwd (none found in the first five
lines of the first file) warns and skips; a cwd containing a
disposable-context marker logs and skips as success; otherwise the
project directory named basename(cwd) is created and the session loop
runs. -/
def processGroup (dry : Bool) (today dir : String) (cc : Nat)
    (files : List SessionFile) : GroupResult :=
  match files with
  | [] => ⟨false, false, none, [], [], cc, false⟩
  | f0 :: _ =>
    let c := extractCwd f0.lines
    if c = "" then ⟨true, false, none, [], [], cc, false⟩
    else if hasMarker c then ⟨false, true, none, [], [], cc, false⟩
    else
      let st := sessionLoop dry today c dir cc files
      ⟨false, false, some (basename c), st.docs, st.report, st.cc, st.aborted⟩

/-- Collections that can ever arise from one group's result: one per
created project directory, named claude-<project>-conversations. -/
def groupCollections (g : GroupResult) : List String :=
  match g.projectDir with
  | none => []
  | some p => ["claude-" ++ p ++ "-conversations"]

/-- The top-level loop of CONVERTER_SCRIPT lines 33-75 over the log
groups, threading project_count (pc) and converted_count (cc), both 0 at
line 33-34.  A group with no .jsonl files is skipped; otherwise the
script executes ((project_count++)), which under set -e exits the script
with status 1 when the previous value is 0 - before the cwd extraction at
line 42 is ever reached.  Returns the written documents, the dry-run
report, and whether the run aborted. -/
def runScript (dry : Bool) (today : String) :
    Nat → Nat → List (String × List SessionFile) →
    List (String × String) × List String × Bool
  | _, _, [] => ([], [], false)
  | pc, cc, (dir, files) :: rest =>
    if files.isEmpty then runScript dry today pc cc rest
    else if pc = 0 then ([], [], true)
    else
      let g := processGroup dry today dir cc files
      if g.aborted then (g.docs, g.report, true)
      else
        let acc := runScript dry today (pc + 1) g.ccOut rest
        (g.docs ++ acc.1, g.report ++ acc.2.1, acc.2.2)

/-- Overwriting write of one document into a per-project output
directory, modelled as a map from filename to content: the redirection
"> $md_file" replaces any previous content at the same path. -/
def fsWrite (fs : String → Option String) (doc : String × String) :
    String → Option String :=
  fun n => if n = doc.1 then some doc.2 else fs n

example : stringTake 8 "abcdef1234" = "abcdef12" := by decide

example : hasMarker "/home/u/.ralphy-worktrees/x" = true := by decide

example : hasMarker "/home/u/work/agent-7" = true := by decide

example : hasMarker "/home/u/git/myproject" = false := by decide

example : basename "/home/u/app" = "app" := by decide

/-- One entry of the converted-history root directory as seen by
readdirSync/statSync: its name, whether it is a directory, and the
transcript documents it contains.  createQmdCollections never reads the
docs field; it is carried to state content-independence. -/
structure DirEntry where
  name : String
  isDir : Bool
  docs : List String
deriving DecidableEq

/-- A command issued to the external qmd binary:
qmd collection remove, qmd collection add --name, qmd context add. -/
inductive Op where
  | remove : String → Op
  | add : String → Op
  | context : String → Op
deriving DecidableEq

/-- The external qmd command line, modelled as an oracle: the outcome of
qmd collection list (none models a nonzero exit caught by the
try/catch), and the success of remove/add/context per collection name. -/
structure Oracle where
  listResult : Option (List String)
  removeOk : String → Bool
  addOk : String → Bool
  contextOk : String → Bool

/-- Derived collection name (install.ts line 469):
claude-<project>-conversations. -/
def collectionName (project : String) : String :=
  "claude-" ++ project ++ "-conversations"

/-- JavaScript regular-expression whitespace, as matched by a blackslash-s
class in the collection-list pattern. -/
def jsWhitespaceChar (c : Char) : Bool :=
  c == ' ' || c == '\t' || c == '\n' || c == '\r' || c == '\x0b' || c == '\x0c'

/-- One line of qmd collection list output matched against the pattern of
install.ts line 464, anchored at the line start: the literal claude-, a
nonempty run of non-whitespace, the literal -conversations, then one or
more whitespace characters and an opening parenthesis; the captured group
is the whole leading token.  Because the captured part is all
non-whitespace and must be followed by whitespace, it is exactly the
maximal leading non-whitespace token, which must start with claude-, end
with -conversations, and be at least 22 characters (nonempty middle). -/
def parseCollectionLine (line : String) : Option String :=
  let cs := line.data
  let tok := cs.takeWhile (fun c => !jsWhitespaceChar c)
  let rest := cs.dropWhile (fun c => !jsWhitespaceChar c)
  if ("claude-".data).isPrefixOf tok
      && ("-conversations".data).isSuffixOf tok
      && decide (22 ≤ tok.length)
      && !rest.isEmpty
      && ((rest.dropWhile jsWhitespaceChar).head? == some '(')
  then some (String.mk tok) else none

/-- The existing-collection set (install.ts lines 459-466): the parsed
list output, or the empty list when qmd collection list failed and the
catch block left the array empty. -/
def existingOf (o : Oracle) : List String :=
  match o.listResult with
  | none => []
  | some lines => lines.filterMap parseCollectionLine

/-- Reconciler state: the two counters, the trace of issued qmd commands,
and the engine's collection set (success of a remove deletes the name,
success of an add inserts it; a failed command leaves the engine
unchanged). -/
structure RecState where
  created : Nat
  recreated : Nat
  ops : List Op
  engine : List String
deriving DecidableEq

/-- The add-then-context part of the try block (install.ts lines
480-487), entered when no remove was needed or the remove succeeded: the
add command is issued; on success the collection is (re)inserted and the
context command is issued; only when both succeed is a counter
incremented (recreated when the collection previously existed, created
otherwise).  Any failure is caught and ends the iteration. -/
def recAdd (o : Oracle) (st : RecState) (name : String) (ex : Bool) : RecState :=
  if o.addOk name then
    let eng := if name ∈ st.engine then st.engine else name :: st.engine
    let st1 : RecState := { st with ops := st.ops ++ [Op.add name], engine := eng }
    if o.contextOk name then
      let st2 : RecState := { st1 with ops := st1.ops ++ [Op.context name] }
      if ex then { st2 with recreated := st2.recreated + 1 }
      else { st2 with created := st2.created + 1 }
    else { st1 with ops := st1.ops ++ [Op.context name] }
  else { st with ops := st.ops ++ [Op.add name] }

/-- One iteration of the project loop (install.ts lines 468-491): derive
the collection name, test membership in the queried existing set, remove
first when it exists (a failed remove is caught and skips the add), then
add and register context. -/
def recStep (o : Oracle) (existing : List String) (st : RecState)
    (project : String) : RecState :=
  let name := collectionName project
  if name ∈ existing then
    if o.removeOk name then
      recAdd o { st with ops := st.ops ++ [Op.remove name], engine := st.engine.erase name } name true
    else { st with ops := st.ops ++ [Op.remove name] }
  else recAdd o st name false

/-- The project subdirectories of the converted-history root
(install.ts lines 454-456). -/
def projectsOf (entries : List DirEntry) : List String :=
  (entries.filter (fun d => d.isDir)).map (fun d => d.name)

/-- install.ts lines 446-494: returns the zero state when the root does
not exist, otherwise folds the per-project iteration over the
subdirectories, starting from zero counters and the given engine
collection set. -/
def createQmdCollections (convertDir : Option (List DirEntry)) (o : Oracle)
    (engine0 : List String) : RecState :=
  match convertDir with
  | none => ⟨0, 0, [], engine0⟩
  | some entries =>
    (projectsOf entries).foldl (recStep o (existingOf o)) ⟨0, 0, [], engine0⟩

/-- The name a command addresses. -/
def opName : Op → String
  | Op.remove n => n
  | Op.add n => n
  | Op.context n => n

/-- Whether a command is a collection removal. -/
def isRemoveOp : Op → Bool
  | Op.remove _ => true
  | _ => false

/-- The commands the loop issues for one project under an
always-succeeding oracle: remove-add-context when the derived name is in
the existing set, add-context otherwise. -/
def opsFor (existing : List String) (p : String) : List Op :=
  let n := collectionName p
  if n ∈ existing then [Op.remove n, Op.add n, Op.context n]
  else [Op.add n, Op.context n]

example : parseCollectionLine "claude-alpha-conversations (qmd://alpha)"
    = some "claude-alpha-conversations" := by decide

example : parseCollectionLine "some other line" = none := by decide

example : parseCollectionLine "claude--conversations (x)" = none := by decide

example : collectionName "alpha" = "claude-alpha-conversations" := by decide

/-- Fixture: a well-formed user session record in project /home/u/app. -/
def recA : Record :=
  ⟨some "user", JContent.str "hello", some "/home/u/app", some "aaaabbbbcccc",
    some "sess-a", some "2024-03-02T09:00:00Z"⟩

/-- Fixture: a well-formed assistant first record of a second session. -/
def recB : Record :=
  ⟨some "assistant", JContent.arr [some "hi", none], some "/home/u/app",
    some "bbbbccccdddd", none, some "2024-03-03T09:00:00Z"⟩

/-- Fixture: a well-formed user first record of a third session. -/
def recC : Record :=
  ⟨some "user", JContent.str "bye", some "/home/u/app", some "ccccddddeeee",
    some "sess-c", some "2024-03-04T09:00:00Z"⟩

/-- Fixture: session file with one valid record. -/
def fileA : SessionFile := ⟨"fileaaa1", [RawLine.parsed recA]⟩

/-- Fixture: session file whose second line is malformed JSON. -/
def fileBad : SessionFile := ⟨"filebbb2", [RawLine.parsed recB, RawLine.mal]⟩

/-- Fixture: session file with one valid record. -/
def fileC : SessionFile := ⟨"fileccc3", [RawLine.parsed recC]⟩

/-- Fixture: first record of the naming fixture of the spec, with date
2024-03-01 and session id abcdef1234. -/
def recNaming : Record :=
  ⟨some "user", JContent.str "hi", some "/home/u/app", some "abcdef1234",
    some "naming", some "2024-03-01T10:00:00Z"⟩

/-- Fixture: the naming-fixture session file. -/
def fileNaming : SessionFile := ⟨"0a1b2c3d4e5f", [RawLine.parsed recNaming]⟩

/-- Fixture: a record whose cwd sits in an agent worktree. -/
def recAgent : Record :=
  ⟨some "user", JContent.str "x", some "/home/u/work/agent-7/sub", some "agentidx",
    none, some "2024-03-05T09:00:00Z"⟩

/-- Fixture: session file of the agent-worktree group. -/
def fileAgent : SessionFile := ⟨"agentfile", [RawLine.parsed recAgent]⟩

/-- Fixture: a record with no cwd field. -/
def recNoCwd : Record :=
  ⟨some "user", JContent.str "x", none, some "nocwdidx", none,
    some "2024-03-06T09:00:00Z"⟩

/-- Fixture: session file of a group whose records carry no cwd. -/
def fileNoCwd : SessionFile := ⟨"nocwdfil", [RawLine.parsed recNoCwd]⟩

theorem stringTake_ne_empty {n : Nat} {s : String} (hn : n ≠ 0) (hs : s ≠ "") :
    stringTake n s ≠ "" := by
  obtain ⟨l⟩ := s
  intro h
  apply hs
  have hd : l.take n = [] := by
    have h2 := congrArg String.data h
    simpa [stringTake] using h2
  rcases List.take_eq_nil_iff.mp hd with h1 | h1
  · exact absurd h1 hn
  · subst h1; rfl

/-- The extracted metadata does not depend on the current date when the
first record carries a nonempty timestamp. -/
theorem metaOf_today_indep (today1 today2 stem : String) (r : Record)
    (rest : List RawLine) (ts : String) (hts : r.timestamp = some ts) (hne : ts ≠ "") :
    metaOf today2 stem (RawLine.parsed r :: rest)
      = metaOf today1 stem (RawLine.parsed r :: rest) := by
  have h10 : stringTake 10 ts ≠ "" := stringTake_ne_empty (by decide) hne
  simp [metaOf, hts, h10]

/-- C1: converting an unchanged session log twice (the first event
carrying a timestamp, so no current-date fallback is involved) produces
byte-for-byte identical output at the same output path: the document of
the second run equals the document of the first, and writing it again
leaves the file map unchanged, so no second file is ever created. -/
theorem claim_C1_idempotence (today1 today2 cwd dir : String) (f : SessionFile)
    (fs : String → Option String) (r : Record) (rest : List RawLine) (ts : String)
    (hl : f.lines = RawLine.parsed r :: rest) (hts : r.timestamp = some ts)
    (hne : ts ≠ "") :
    sessionDoc today2 cwd dir f = sessionDoc today1 cwd dir f ∧
    fsWrite (fsWrite fs (sessionDoc today1 cwd dir f)) (sessionDoc today2 cwd dir f)
      = fsWrite fs (sessionDoc today1 cwd dir f) := by
  have hmeta : metaOf today2 f.stem f.lines = metaOf today1 f.stem f.lines := by
    rw [hl]
    exact metaOf_today_indep today1 today2 f.stem r rest ts hts hne
  have hdoc : sessionDoc today2 cwd dir f = sessionDoc today1 cwd dir f := by
    simp [sessionDoc, hmeta]
  refine ⟨hdoc, ?_⟩
  rw [hdoc]
  funext n
  by_cases h : n = (sessionDoc today1 cwd dir f).1 <;> simp [fsWrite, h]

theorem claim_C1_idempotence_witness :
    fileA.lines = RawLine.parsed recA :: [] ∧
    recA.timestamp = some "2024-03-02T09:00:00Z" ∧
    ("2024-03-02T09:00:00Z" : String) ≠ "" ∧
    (sessionDoc "2026-02-02" "/home/u/app" "projA" fileA
        = sessionDoc "2026-01-01" "/home/u/app" "projA" fileA ∧
      fsWrite (fsWrite (fun _ => none)
          (sessionDoc "2026-01-01" "/home/u/app" "projA" fileA))
          (sessionDoc "2026-02-02" "/home/u/app" "projA" fileA)
        = fsWrite (fun _ => none)
            (sessionDoc "2026-01-01" "/home/u/app" "projA" fileA)) :=
  ⟨rfl, rfl, by decide,
    claim_C1_idempotence "2026-01-01" "2026-02-02" "/home/u/app" "projA" fileA
      (fun _ => none) recA [] "2024-03-02T09:00:00Z" rfl rfl (by decide)⟩

/-- C3 counterexample: for the literal spec fixture (date 2024-03-01,
session id abcdef1234) the script computes 2024-03-01-abcdef12.md, since
the bash expansion of the session id keeps 8 characters; the claimed
filename 2024-03-01-abcdef1.md differs. -/
theorem claim_C3_counterexample :
    (sessionDoc "2026-01-01" "/home/u/app" "projA" fileNaming).1
        = "2024-03-01-abcdef12.md" ∧
    ("2024-03-01-abcdef12.md" : String) ≠ "2024-03-01-abcdef1.md" := by
  decide

/-- C3 amended: the output filename is the date (first 10 characters of
the first event's timestamp) followed by a hyphen and the first 8
characters of the session id, with extension .md - for the spec fixture
this is 2024-03-01-abcdef12.md; when the session id is absent, the first
8 characters of the log file's filename stem are used instead. -/
theorem claim_C3_naming (today cwd dir stem : String) (r : Record)
    (rest : List RawLine) (ts : String)
    (hts : r.timestamp = some ts) (h10 : stringTake 10 ts ≠ "") :
    (∀ id : String, r.sessionId = some id → id ≠ "" →
      (sessionDoc today cwd dir ⟨stem, RawLine.parsed r :: rest⟩).1
        = stringTake 10 ts ++ "-" ++ stringTake 8 id ++ ".md") ∧
    (r.sessionId = none →
      (sessionDoc today cwd dir ⟨stem, RawLine.parsed r :: rest⟩).1
        = stringTake 10 ts ++ "-" ++ stringTake 8 stem ++ ".md") := by
  constructor
  · intro id hid hne
    have h8 : stringTake 8 id ≠ "" := stringTake_ne_empty (by decide) hne
    simp [sessionDoc, metaOf, mdName, hts, hid, h10, h8]
  · intro hid
    have hz : stringTake 8 ("" : String) = "" := rfl
    simp [sessionDoc, metaOf, mdName, hts, hid, h10, hz]

theorem claim_C3_naming_witness :
    recNaming.timestamp = some "2024-03-01T10:00:00Z" ∧
    stringTake 10 "2024-03-01T10:00:00Z" ≠ "" ∧
    recNaming.sessionId = some "abcdef1234" ∧
    ("abcdef1234" : String) ≠ "" ∧
    (sessionDoc "2026-01-01" "/home/u/app" "projA"
        ⟨"0a1b2c3d4e5f", RawLine.parsed recNaming :: []⟩).1
      = stringTake 10 "2024-03-01T10:00:00Z" ++ "-" ++ stringTake 8 "abcdef1234" ++ ".md" :=
  ⟨rfl, by decide, rfl, by decide,
    (claim_C3_naming "2026-01-01" "/home/u/app" "projA" "0a1b2c3d4e5f" recNaming []
        "2024-03-01T10:00:00Z" rfl (by decide)).1 "abcdef1234" rfl (by decide)⟩

/-- C4: a log group whose extracted originating path contains a
disposable-context marker (.ralphy-worktrees or /agent-) is skipped with
only the log line: no warning, no project directory, zero documents, zero
dry-run output, no abort - and therefore zero collections can arise from
it.  Holds for wet and dry runs alike. -/
theorem claim_C4_exclusion (dry : Bool) (today dir : String) (cc : Nat)
    (f0 : SessionFile) (fs : List SessionFile)
    (h1 : extractCwd f0.lines ≠ "") (h2 : hasMarker (extractCwd f0.lines) = true) :
    processGroup dry today dir cc (f0 :: fs)
        = ⟨false, true, none, [], [], cc, false⟩ ∧
    groupCollections (processGroup dry today dir cc (f0 :: fs)) = [] := by
  have hg : processGroup dry today dir cc (f0 :: fs)
      = ⟨false, true, none, [], [], cc, false⟩ := by
    simp [processGroup, h1, h2]
  exact ⟨hg, by rw [hg]; rfl⟩

theorem claim_C4_exclusion_witness :
    extractCwd fileAgent.lines ≠ "" ∧
    hasMarker (extractCwd fileAgent.lines) = true ∧
    (processGroup false "2026-01-01" "projAgent" 0 [fileAgent]
        = ⟨false, true, none, [], [], 0, false⟩ ∧
      groupCollections (processGroup false "2026-01-01" "projAgent" 0 [fileAgent]) = []) :=
  ⟨by decide, by decide,
    claim_C4_exclusion false "2026-01-01" "projAgent" 0 fileAgent []
      (by decide) (by decide)⟩

/-- C7: a log group in which no nonempty cwd value is found in the first
five lines of the representative session log is skipped with the warning
and nothing else: no project directory is created (no identity is ever
fabricated), zero documents, no abort.  Holds for wet and dry runs. -/
theorem claim_C7_noCwd (dry : Bool) (today dir : String) (cc : Nat)
    (f0 : SessionFile) (fs : List SessionFile)
    (h : extractCwd f0.lines = "") :
    processGroup dry today dir cc (f0 :: fs)
        = ⟨true, false, none, [], [], cc, false⟩ := by
  simp [processGroup, h]

theorem claim_C7_noCwd_witness :
    extractCwd fileNoCwd.lines = "" ∧
    processGroup false "2026-01-01" "projNoCwd" 0 [fileNoCwd]
        = ⟨true, false, none, [], [], 0, false⟩ :=
  ⟨by decide,
    claim_C7_noCwd false "2026-01-01" "projNoCwd" 0 fileNoCwd [] (by decide)⟩

/-- C6 evaluation at the failing input: a log root with one project group
of three sessions, the second of which has a malformed line.  The whole
script aborts at ((project_count++)) - the arithmetic command returns
status 1 because the counter's previous value is 0, and set -e exits -
so zero documents are produced.  Even granting entry into the group body
(converted_count still 0), the session loop writes the first document and
then aborts at ((converted_count++)), producing one document, not three,
and never reaching the malformed session or its sibling. -/
theorem claim_C6_fault_isolation_broken :
    (runScript false "2026-01-01" 0 0 [("projA", [fileA, fileBad, fileC])]).1 = [] ∧
    (runScript false "2026-01-01" 0 0 [("projA", [fileA, fileBad, fileC])]).2.2 = true ∧
    (sessionLoop false "2026-01-01" "/home/u/app" "projA" 0
        [fileA, fileBad, fileC]).docs.length = 1 ∧
    (sessionLoop false "2026-01-01" "/home/u/app" "projA" 0
        [fileA, fileBad, fileC]).aborted = true ∧
    (1 : Nat) ≠ 3 := by
  refine ⟨rfl, rfl, ?_, ?_, by decide⟩ <;> decide

/-- In dry-run mode the session loop never writes a document, whatever
the input: the report-and-continue branch precedes the write. -/
theorem sessionLoop_dry_docs (today cwd dir : String) :
    ∀ (files : List SessionFile) (cc : Nat),
      (sessionLoop true today cwd dir cc files).docs = [] := by
  intro files
  induction files with
  | nil => intro cc; rfl
  | cons f fs ih =>
    intro cc
    by_cases h : isMalHead f.lines = true
    · simp [sessionLoop, h]
    · simp [sessionLoop, h, ih]

/-- In dry-run mode, when no session's first line is malformed, the
report lists the intended output filename of every session in order and
the loop does not abort. -/
theorem sessionLoop_dry_report (today cwd dir : String) :
    ∀ (files : List SessionFile) (cc : Nat),
      files.all (fun f => !isMalHead f.lines) = true →
      (sessionLoop true today cwd dir cc files).report
          = files.map (fun f => wouldLine f.stem (metaOf today f.stem f.lines)) ∧
      (sessionLoop true today cwd dir cc files).aborted = false := by
  intro files
  induction files with
  | nil => intro cc _; exact ⟨rfl, rfl⟩
  | cons f fs ih =>
    intro cc hall
    simp only [List.all_cons, Bool.and_eq_true] at hall
    have hf : isMalHead f.lines = false := by simpa using hall.1
    have hfs : fs.all (fun f => !isMalHead f.lines) = true := hall.2
    have hih := ih cc hfs
    simp [sessionLoop, hf, hih.1, hih.2]

/-- C8 amended: on a group with a usable, non-excluded originating path
and well-formed session heads, the dry run writes zero markdown files and
reports the intended output filename of every session - but it still
creates directories: the per-project output directory is made by the
mkdir -p that precedes the dry-run check (and the output root is made
unconditionally at the top of the script). -/
theorem claim_C8_dry_run (today dir : String) (cc : Nat)
    (f0 : SessionFile) (fs : List SessionFile)
    (hc : extractCwd f0.lines ≠ "") (hm : hasMarker (extractCwd f0.lines) = false)
    (hok : (f0 :: fs).all (fun f => !isMalHead f.lines) = true) :
    (processGroup true today dir cc (f0 :: fs)).docs = [] ∧
    (processGroup true today dir cc (f0 :: fs)).report
        = (f0 :: fs).map (fun f => wouldLine f.stem (metaOf today f.stem f.lines)) ∧
    (processGroup true today dir cc (f0 :: fs)).projectDir
        = some (basename (extractCwd f0.lines)) ∧
    (processGroup true today dir cc (f0 :: fs)).aborted = false := by
  have h1 := sessionLoop_dry_docs today (extractCwd f0.lines) dir (f0 :: fs) cc
  have h2 := sessionLoop_dry_report today (extractCwd f0.lines) dir (f0 :: fs) cc hok
  refine ⟨?_, ?_, ?_, ?_⟩ <;> simp [processGroup, hc, hm, h1, h2.1, h2.2]

theorem claim_C8_dry_run_witness :
    extractCwd fileA.lines ≠ "" ∧
    hasMarker (extractCwd fileA.lines) = false ∧
    [fileA].all (fun f => !isMalHead f.lines) = true ∧
    ((processGroup true "2026-01-01" "projA" 0 [fileA]).docs = [] ∧
      (processGroup true "2026-01-01" "projA" 0 [fileA]).report
          = [fileA].map (fun f => wouldLine f.stem (metaOf "2026-01-01" f.stem f.lines)) ∧
      (processGroup true "2026-01-01" "projA" 0 [fileA]).projectDir
          = some (basename (extractCwd fileA.lines)) ∧
      (processGroup true "2026-01-01" "projA" 0 [fileA]).aborted = false) :=
  ⟨by decide, by decide, by decide,
    claim_C8_dry_run "2026-01-01" "projA" 0 fileA [] (by decide) (by decide) (by decide)⟩

/-- C8 counterexample: dry-run conversion of a populated group is not
write-free on the directory level - the per-project output directory is
created (mkdir -p runs before the dry-run check), refuting "no
directories are created". -/
theorem claim_C8_counterexample :
    (processGroup true "2026-01-01" "projA" 0 [fileA]).projectDir = some "app" ∧
    (processGroup true "2026-01-01" "projA" 0 [fileA]).docs = [] ∧
    (processGroup true "2026-01-01" "projA" 0 [fileA]).report
        = ["  Would convert: fileaaa1.jsonl -> 2024-03-02-aaaabbbb.md"] ∧
    some "app" ≠ (none : Option String) := by
  refine ⟨?_, ?_, ?_, by decide⟩ <;> decide

/-- The derived collection name determines the project name. -/
theorem collectionName_inj {a b : String} (h : collectionName a = collectionName b) :
    a = b := by
  obtain ⟨la⟩ := a
  obtain ⟨lb⟩ := b
  have hd : "claude-".data ++ la ++ "-conversations".data
      = "claude-".data ++ lb ++ "-conversations".data := by
    have h2 := congrArg String.data h
    simpa [collectionName, List.append_assoc] using h2
  have h3 := List.append_cancel_right hd
  have h4 := List.append_cancel_left h3
  exact congrArg String.mk h4

/-- Membership of an unrelated name in the engine is unchanged by the
add-context phase. -/
theorem recAdd_engine_mem_other (o : Oracle) (st : RecState) (name c : String)
    (ex : Bool) (h : c ≠ name) :
    (c ∈ (recAdd o st name ex).engine) ↔ c ∈ st.engine := by
  unfold recAdd
  cases ha : o.addOk name with
  | false => simp
  | true =>
    cases hc : o.contextOk name with
    | false =>
      by_cases hm : name ∈ st.engine <;> simp [hm, h]
    | true =>
      cases ex <;> by_cases hm : name ∈ st.engine <;> simp [hm, h]

/-- The add-context phase preserves distinctness of the engine set. -/
theorem recAdd_engine_nodup (o : Oracle) (st : RecState) (name : String) (ex : Bool)
    (h : st.engine.Nodup) : (recAdd o st name ex).engine.Nodup := by
  unfold recAdd
  cases ha : o.addOk name with
  | false => simpa
  | true =>
    cases hc : o.contextOk name with
    | false =>
      by_cases hm : name ∈ st.engine <;> simp [hm, h, List.nodup_cons]
    | true =>
      cases ex <;> by_cases hm : name ∈ st.engine <;> simp [hm, h, List.nodup_cons]

/-- Membership of an unrelated name in the engine is unchanged by one
project iteration. -/
theorem recStep_engine_mem_other (o : Oracle) (existing : List String)
    (st : RecState) (q c : String) (h : c ≠ collectionName q) :
    (c ∈ (recStep o existing st q).engine) ↔ c ∈ st.engine := by
  unfold recStep
  by_cases hex : collectionName q ∈ existing
  · cases hrm : o.removeOk (collectionName q) with
    | false => simp [hex, hrm]
    | true =>
      simp only [hex, if_pos, hrm, if_true]
      rw [recAdd_engine_mem_other o _ _ c true h]
      exact List.mem_erase_of_ne h
  · simp only [hex, if_neg, if_false]
    exact recAdd_engine_mem_other o st _ c false h

/-- One project iteration preserves distinctness of the engine set. -/
theorem recStep_engine_nodup (o : Oracle) (existing : List String)
    (st : RecState) (q : String) (h : st.engine.Nodup) :
    (recStep o existing st q).engine.Nodup := by
  unfold recStep
  by_cases hex : collectionName q ∈ existing
  · cases hrm : o.removeOk (collectionName q) with
    | false => simpa [hex, hrm]
    | true =>
      simp only [hex, if_pos, hrm, if_true]
      exact recAdd_engine_nodup o _ _ true (h.erase _)
  · simp only [hex, if_neg, if_false]
    exact recAdd_engine_nodup o st _ false h

/-- Folding iterations over projects whose derived names differ from c
leaves membership of c in the engine unchanged. -/
theorem foldl_engine_mem_other (o : Oracle) (existing : List String) (c : String) :
    ∀ (ps : List String) (st : RecState), (∀ q ∈ ps, collectionName q ≠ c) →
      ((c ∈ (ps.foldl (recStep o existing) st).engine) ↔ c ∈ st.engine) := by
  intro ps
  induction ps with
  | nil => intro st _; exact Iff.rfl
  | cons q qs ih =>
    intro st hall
    have hq : c ≠ collectionName q := fun hc => (hall q (by simp)) hc.symm
    have hqs : ∀ r ∈ qs, collectionName r ≠ c := fun r hr => hall r (by simp [hr])
    rw [List.foldl_cons, ih _ hqs, recStep_engine_mem_other o existing st q c hq]

/-- Folding iterations preserves distinctness of the engine set. -/
theorem foldl_engine_nodup (o : Oracle) (existing : List String) :
    ∀ (ps : List String) (st : RecState), st.engine.Nodup →
      ((ps.foldl (recStep o existing) st).engine).Nodup := by
  intro ps
  induction ps with
  | nil => intro st h; exact h
  | cons q qs ih =>
    intro st h
    exact ih _ (recStep_engine_nodup o existing st q h)

/-- The add-context phase increments the counters by at most one. -/
theorem recAdd_counters_le (o : Oracle) (st : RecState) (name : String) (ex : Bool) :
    (recAdd o st name ex).created + (recAdd o st name ex).recreated
      ≤ st.created + st.recreated + 1 := by
  unfold recAdd
  cases ha : o.addOk name with
  | false => simp
  | true =>
    cases hc : o.contextOk name with
    | false => simp
    | true => cases ex <;> simp <;> omega

/-- When the add or the context registration fails, the counters are
unchanged by the add-context phase. -/
theorem recAdd_counters_fail (o : Oracle) (st : RecState) (name : String) (ex : Bool)
    (h : o.addOk name = false ∨ o.contextOk name = false) :
    (recAdd o st name ex).created = st.created ∧
    (recAdd o st name ex).recreated = st.recreated := by
  unfold recAdd
  cases ha : o.addOk name with
  | false => simp
  | true =>
    cases hc : o.contextOk name with
    | false => simp
    | true =>
      rcases h with h | h
      · rw [ha] at h; cases h
      · rw [hc] at h; cases h

/-- One project iteration increments the counters by at most one. -/
theorem recStep_counters_le (o : Oracle) (existing : List String)
    (st : RecState) (q : String) :
    (recStep o existing st q).created + (recStep o existing st q).recreated
      ≤ st.created + st.recreated + 1 := by
  unfold recStep
  by_cases hex : collectionName q ∈ existing
  · cases hrm : o.removeOk (collectionName q) with
    | false => simp [hex, hrm]
    | true =>
      simp only [hex, if_pos, hrm, if_true]
      exact recAdd_counters_le o _ _ true
  · simp only [hex, if_neg, if_false]
    exact recAdd_counters_le o st _ false

/-- When the add or the context registration for this project's name
fails, one iteration leaves the counters unchanged. -/
theorem recStep_counters_fail (o : Oracle) (existing : List String)
    (st : RecState) (q : String)
    (h : o.addOk (collectionName q) = false ∨ o.contextOk (collectionName q) = false) :
    (recStep o existing st q).created = st.created ∧
    (recStep o existing st q).recreated = st.recreated := by
  unfold recStep
  by_cases hex : collectionName q ∈ existing
  · cases hrm : o.removeOk (collectionName q) with
    | false => simp [hex, hrm]
    | true =>
      simp only [hex, if_pos, hrm, if_true]
      exact recAdd_counters_fail o _ _ true h
  · simp only [hex, if_neg, if_false]
    exact recAdd_counters_fail o st _ false h

/-- Folding over a project list increments created + recreated by at most
the number of projects. -/
theorem foldl_counters_le (o : Oracle) (existing : List String) :
    ∀ (ps : List String) (st : RecState),
      (ps.foldl (recStep o existing) st).created
          + (ps.foldl (recStep o existing) st).recreated
        ≤ st.created + st.recreated + ps.length := by
  intro ps
  induction ps with
  | nil => intro st; simp
  | cons q qs ih =>
    intro st
    have h1 := ih (recStep o existing st q)
    have h2 := recStep_counters_le o existing st q
    simp only [List.foldl_cons, List.length_cons]
    omega

/-- Every command issued for a project addresses its derived name. -/
theorem opsFor_name (existing : List String) (p : String) :
    ∀ op ∈ opsFor existing p, opName op = collectionName p := by
  intro op hop
  unfold opsFor at hop
  by_cases hex : collectionName p ∈ existing <;> simp [hex] at hop <;>
    rcases hop with h | h | h <;> simp_all [opName]

/-- Under an always-succeeding oracle, one iteration appends exactly the
remove-add-context or add-context command sequence and increments the
matching counter. -/
theorem recStep_allOk (o : Oracle) (existing : List String) (st : RecState)
    (p : String)
    (hr : o.removeOk = fun _ => true) (ha : o.addOk = fun _ => true)
    (hc : o.contextOk = fun _ => true) :
    (recStep o existing st p).ops = st.ops ++ opsFor existing p ∧
    (recStep o existing st p).created
        = st.created + (if collectionName p ∈ existing then 0 else 1) ∧
    (recStep o existing st p).recreated
        = st.recreated + (if collectionName p ∈ existing then 1 else 0) := by
  unfold recStep recAdd opsFor
  by_cases hex : collectionName p ∈ existing <;>
    simp [hex, hr, ha, hc]

/-- Folding the always-succeeding iteration over a project list appends
the per-project command sequences in order and counts recreated per
project whose derived name already exists, created per project whose name
does not. -/
theorem foldl_allOk (o : Oracle) (existing : List String)
    (hr : o.removeOk = fun _ => true) (ha : o.addOk = fun _ => true)
    (hc : o.contextOk = fun _ => true) :
    ∀ (ps : List String) (st : RecState),
      (ps.foldl (recStep o existing) st).ops
          = st.ops ++ ps.flatMap (opsFor existing) ∧
      (ps.foldl (recStep o existing) st).created
          = st.created + ps.countP (fun p => !(decide (collectionName p ∈ existing))) ∧
      (ps.foldl (recStep o existing) st).recreated
          = st.recreated + ps.countP (fun p => decide (collectionName p ∈ existing)) := by
  intro ps
  induction ps with
  | nil => intro st; simp
  | cons p qs ih =>
    intro st
    have hs := recStep_allOk o existing st p hr ha hc
    have hi := ih (recStep o existing st p)
    refine ⟨?_, ?_, ?_⟩
    · rw [List.foldl_cons, hi.1, hs.1]
      simp [List.flatMap_cons, List.append_assoc]
    · rw [List.foldl_cons, hi.2.1, hs.2.1]
      by_cases hex : collectionName p ∈ existing
      · simp [hex, List.countP_cons]
      · simp [hex, List.countP_cons]
        omega
    · rw [List.foldl_cons, hi.2.2, hs.2.2]
      by_cases hex : collectionName p ∈ existing
      · simp [hex, List.countP_cons]
        omega
      · simp [hex, List.countP_cons]

/-- With an empty existing set, one iteration never issues a remove,
never increments recreated, and increments created exactly when both the
add and the context command succeed. -/
theorem recStep_nilExisting (o : Oracle) (st : RecState) (p : String) :
    (∀ op ∈ (recStep o [] st p).ops,
        op ∈ st.ops ∨ isRemoveOp op = false) ∧
    (recStep o [] st p).created
        = st.created + (if o.addOk (collectionName p) && o.contextOk (collectionName p)
            then 1 else 0) ∧
    (recStep o [] st p).recreated = st.recreated := by
  unfold recStep recAdd
  by_cases ha : o.addOk (collectionName p) = true
  · by_cases hc : o.contextOk (collectionName p) = true
    · refine ⟨?_, by simp [ha, hc], by simp [ha, hc]⟩
      intro op hop
      simp [ha, hc, List.append_assoc] at hop
      rcases hop with h | h | h
      · exact Or.inl h
      · subst h; exact Or.inr rfl
      · subst h; exact Or.inr rfl
    · refine ⟨?_, by simp [ha, hc], by simp [ha, hc]⟩
      intro op hop
      simp [ha, hc, List.append_assoc] at hop
      rcases hop with h | h | h
      · exact Or.inl h
      · subst h; exact Or.inr rfl
      · subst h; exact Or.inr rfl
  · refine ⟨?_, by simp [ha], by simp [ha]⟩
    intro op hop
    simp [ha] at hop
    rcases hop with h | h
    · exact Or.inl h
    · subst h; exact Or.inr rfl

/-- Folding with an empty existing set: no removes are ever issued
(beyond whatever the accumulator already held), recreated stays put, and
created counts the projects whose add and context commands both
succeed. -/
theorem foldl_nilExisting (o : Oracle) :
    ∀ (ps : List String) (st : RecState),
      (∀ op ∈ st.ops, isRemoveOp op = false) →
      ((∀ op ∈ (ps.foldl (recStep o []) st).ops, isRemoveOp op = false) ∧
        (ps.foldl (recStep o []) st).created
            = st.created + ps.countP
                (fun p => o.addOk (collectionName p) && o.contextOk (collectionName p)) ∧
        (ps.foldl (recStep o []) st).recreated = st.recreated) := by
  intro ps
  induction ps with
  | nil => intro st h; exact ⟨h, by simp, rfl⟩
  | cons p qs ih =>
    intro st h
    have hs := recStep_nilExisting o st p
    have hstep : ∀ op ∈ (recStep o [] st p).ops, isRemoveOp op = false := by
      intro op hop
      rcases hs.1 op hop with hin | hfalse
      · exact h op hin
      · exact hfalse
    have hi := ih (recStep o [] st p) hstep
    refine ⟨?_, ?_, ?_⟩
    · simpa only [List.foldl_cons] using hi.1
    · simp only [List.foldl_cons, List.countP_cons]
      rw [hi.2.1, hs.2.1]
      by_cases hb : (o.addOk (collectionName p) && o.contextOk (collectionName p)) = true
      · simp [hb]
        omega
      · simp [hb]
    · simp only [List.foldl_cons]
      rw [hi.2.2, hs.2.2]

/-- With the project's name in the existing set, a successful remove and
a failed add leave the engine without the name (the engine set being
duplicate-free) and the counters unchanged. -/
theorem recStep_self_addFail (o : Oracle) (existing : List String)
    (st : RecState) (p : String)
    (hex : collectionName p ∈ existing)
    (hrm : o.removeOk (collectionName p) = true)
    (hadd : o.addOk (collectionName p) = false)
    (hnd : st.engine.Nodup) :
    collectionName p ∉ (recStep o existing st p).engine ∧
    (recStep o existing st p).created = st.created ∧
    (recStep o existing st p).recreated = st.recreated := by
  unfold recStep recAdd
  simp only [hex, if_pos, hrm, if_true, hadd, Bool.false_eq_true, if_false]
  refine ⟨hnd.not_mem_erase, ?_, ?_⟩ <;> simp

/-- With the project's name in the existing set, a successful remove and
add followed by a failed context registration leave the engine containing
the name while the counters are unchanged. -/
theorem recStep_self_ctxFail (o : Oracle) (existing : List String)
    (st : RecState) (p : String)
    (hex : collectionName p ∈ existing)
    (hrm : o.removeOk (collectionName p) = true)
    (hadd : o.addOk (collectionName p) = true)
    (hctx : o.contextOk (collectionName p) = false) :
    collectionName p ∈ (recStep o existing st p).engine ∧
    (recStep o existing st p).created = st.created ∧
    (recStep o existing st p).recreated = st.recreated := by
  unfold recStep recAdd
  simp only [hex, if_pos, hrm, if_true, hadd, hctx, Bool.false_eq_true, if_false]
  refine ⟨?_, by simp, by simp⟩
  by_cases hm : collectionName p ∈ st.engine.erase (collectionName p) <;> simp [hm]

/-- Fixture: converted-history root with two populated project
directories. -/
def entriesW : List DirEntry := [⟨"alpha", true, ["a.md"]⟩, ⟨"beta", true, ["b.md"]⟩]

/-- Fixture: an oracle whose listing reports the alpha collection and an
orphan collection, with every mutation succeeding. -/
def oracleW : Oracle :=
  ⟨some ["claude-alpha-conversations (qmd://alpha)",
         "claude-orphan-conversations (qmd://orphan)"],
    fun _ => true, fun _ => true, fun _ => true⟩

/-- Fixture: an oracle whose qmd collection list invocation fails. -/
def oracleListFail : Oracle := ⟨none, fun _ => true, fun _ => true, fun _ => true⟩

/-- Fixture: an oracle with an empty listing and every mutation
succeeding. -/
def oracleEmptyList : Oracle := ⟨some [], fun _ => true, fun _ => true, fun _ => true⟩

/-- Fixture: an oracle listing the pp collection, whose context
registration always fails. -/
def oracleCtxFail : Oracle :=
  ⟨some ["claude-pp-conversations (qmd://pp)"],
    fun _ => true, fun _ => true, fun _ => false⟩

/-- Fixture: an oracle listing the pp collection, whose collection add
always fails. -/
def oracleAddFail : Oracle :=
  ⟨some ["claude-pp-conversations (qmd://pp)"],
    fun _ => true, fun _ => false, fun _ => true⟩

/-- Fixture: converted-history root with the single pp project. -/
def entriesPP : List DirEntry := [⟨"pp", true, ["doc.md"]⟩]

/-- C2: under an always-succeeding oracle, every project directory whose
derived collection name is in the queried existing set gets exactly
remove-add-context and counts as recreated, every other project
directory gets exactly add-context (a single add, no remove) and counts
as created, and a collection whose name is not derived from any project
directory is never addressed by any command and keeps its engine
membership unchanged. -/
theorem claim_C2_reconciliation (entries : List DirEntry) (o : Oracle)
    (engine0 : List String)
    (hr : o.removeOk = fun _ => true) (ha : o.addOk = fun _ => true)
    (hc : o.contextOk = fun _ => true) :
    (createQmdCollections (some entries) o engine0).ops
        = (projectsOf entries).flatMap (opsFor (existingOf o)) ∧
    (createQmdCollections (some entries) o engine0).recreated
        = ((projectsOf entries).filter
            (fun p => decide (collectionName p ∈ existingOf o))).length ∧
    (createQmdCollections (some entries) o engine0).created
        = ((projectsOf entries).filter
            (fun p => !(decide (collectionName p ∈ existingOf o)))).length ∧
    ∀ c, c ∉ (projectsOf entries).map collectionName →
      (∀ op ∈ (createQmdCollections (some entries) o engine0).ops, opName op ≠ c) ∧
      (c ∈ (createQmdCollections (some entries) o engine0).engine ↔ c ∈ engine0) := by
  have hfold := foldl_allOk o (existingOf o) hr ha hc (projectsOf entries)
    ⟨0, 0, [], engine0⟩
  have hdef : createQmdCollections (some entries) o engine0
      = (projectsOf entries).foldl (recStep o (existingOf o)) ⟨0, 0, [], engine0⟩ := rfl
  refine ⟨?_, ?_, ?_, ?_⟩
  · rw [hdef, hfold.1]; simp
  · rw [hdef, hfold.2.2]; simp [List.countP_eq_length_filter]
  · rw [hdef, hfold.2.1]; simp [List.countP_eq_length_filter]
  · intro c hcnot
    constructor
    · intro op hop heq
      rw [hdef, hfold.1] at hop
      simp only [List.nil_append] at hop
      obtain ⟨p, hp, hop2⟩ := List.mem_flatMap.mp hop
      have hname := opsFor_name (existingOf o) p op hop2
      exact hcnot (List.mem_map.mpr ⟨p, hp, by rw [← hname, heq]⟩)
    · have hall : ∀ q ∈ projectsOf entries, collectionName q ≠ c := by
        intro q hq hqc
        exact hcnot (List.mem_map.mpr ⟨q, hq, hqc⟩)
      rw [hdef]
      exact foldl_engine_mem_other o (existingOf o) c (projectsOf entries)
        ⟨0, 0, [], engine0⟩ hall

theorem claim_C2_reconciliation_witness :
    (oracleW.removeOk = fun _ => true) ∧ (oracleW.addOk = fun _ => true) ∧
    (oracleW.contextOk = fun _ => true) ∧
    ((createQmdCollections (some entriesW) oracleW
          ["claude-orphan-conversations"]).ops
        = (projectsOf entriesW).flatMap (opsFor (existingOf oracleW)) ∧
      (createQmdCollections (some entriesW) oracleW
          ["claude-orphan-conversations"]).recreated
        = ((projectsOf entriesW).filter
            (fun p => decide (collectionName p ∈ existingOf oracleW))).length ∧
      (createQmdCollections (some entriesW) oracleW
          ["claude-orphan-conversations"]).created
        = ((projectsOf entriesW).filter
            (fun p => !(decide (collectionName p ∈ existingOf oracleW)))).length ∧
      ∀ c, c ∉ (projectsOf entriesW).map collectionName →
        (∀ op ∈ (createQmdCollections (some entriesW) oracleW
            ["claude-orphan-conversations"]).ops, opName op ≠ c) ∧
        (c ∈ (createQmdCollections (some entriesW) oracleW
            ["claude-orphan-conversations"]).engine
          ↔ c ∈ ["claude-orphan-conversations"])) :=
  ⟨rfl, rfl, rfl,
    claim_C2_reconciliation entriesW oracleW ["claude-orphan-conversations"] rfl rfl rfl⟩

/-- The project list the reconciler iterates over is computed from entry
names and directory flags alone; clearing every directory's document list
leaves it unchanged. -/
theorem projectsOf_clearDocs (entries : List DirEntry) :
    projectsOf (entries.map (fun d => ⟨d.name, d.isDir, []⟩)) = projectsOf entries := by
  induction entries with
  | nil => rfl
  | cons d ds ih =>
    by_cases h : d.isDir = true <;>
      simp only [projectsOf, List.map_cons, List.filter_cons, h] at ih ⊢ <;>
      simp [h, ih]

/-- C5 amended: the reconciler never inspects directory contents - its
entire result (commands issued, counters, engine state) is unchanged when
every project directory's document list is emptied, so a create is issued
for every subdirectory whether or not it contains any transcript
document. -/
theorem claim_C5_content_blind (entries : List DirEntry) (o : Oracle)
    (engine0 : List String) :
    createQmdCollections (some (entries.map (fun d => ⟨d.name, d.isDir, []⟩))) o engine0
      = createQmdCollections (some entries) o engine0 := by
  show (projectsOf (entries.map (fun d => ⟨d.name, d.isDir, []⟩))).foldl
      (recStep o (existingOf o)) ⟨0, 0, [], engine0⟩
    = (projectsOf entries).foldl (recStep o (existingOf o)) ⟨0, 0, [], engine0⟩
  rw [projectsOf_clearDocs]

/-- C5 counterexample: a project directory containing zero transcript
documents still triggers a collection add (and a context registration)
and is counted as created, refuting "no collection is ever created for a
project output directory that contains zero transcript documents". -/
theorem claim_C5_counterexample :
    (⟨"emptyproj", true, []⟩ : DirEntry).docs = [] ∧
    (createQmdCollections (some [⟨"emptyproj", true, []⟩]) oracleEmptyList []).created = 1 ∧
    (createQmdCollections (some [⟨"emptyproj", true, []⟩]) oracleEmptyList []).ops
      = [Op.add "claude-emptyproj-conversations",
         Op.context "claude-emptyproj-conversations"] := by
  refine ⟨rfl, ?_, ?_⟩ <;> decide

/-- C9: when the qmd collection list invocation fails, the catch block
leaves the existing set empty, so the run issues no remove command at
all, recreated stays 0, and created counts exactly the projects whose
add and context commands both succeed - regardless of what collections
the engine actually holds. -/
theorem claim_C9_listFailure (entries : List DirEntry) (o : Oracle)
    (engine0 : List String) (hl : o.listResult = none) :
    (∀ op ∈ (createQmdCollections (some entries) o engine0).ops,
        isRemoveOp op = false) ∧
    (createQmdCollections (some entries) o engine0).created
        = ((projectsOf entries).filter
            (fun p => o.addOk (collectionName p) && o.contextOk (collectionName p))).length ∧
    (createQmdCollections (some entries) o engine0).recreated = 0 := by
  have hex : existingOf o = [] := by simp [existingOf, hl]
  have hdef : createQmdCollections (some entries) o engine0
      = (projectsOf entries).foldl (recStep o (existingOf o)) ⟨0, 0, [], engine0⟩ := rfl
  rw [hdef, hex]
  have h := foldl_nilExisting o (projectsOf entries) ⟨0, 0, [], engine0⟩
    (fun op hop => absurd hop (List.not_mem_nil op))
  refine ⟨h.1, ?_, h.2.2⟩
  rw [h.2.1]
  simp [List.countP_eq_length_filter]

theorem claim_C9_listFailure_witness :
    oracleListFail.listResult = none ∧
    ((∀ op ∈ (createQmdCollections (some entriesW) oracleListFail
          ["claude-alpha-conversations"]).ops, isRemoveOp op = false) ∧
      (createQmdCollections (some entriesW) oracleListFail
          ["claude-alpha-conversations"]).created
        = ((projectsOf entriesW).filter
            (fun p => oracleListFail.addOk (collectionName p)
              && oracleListFail.contextOk (collectionName p))).length ∧
      (createQmdCollections (some entriesW) oracleListFail
          ["claude-alpha-conversations"]).recreated = 0) :=
  ⟨rfl, claim_C9_listFailure entriesW oracleListFail ["claude-alpha-conversations"] rfl⟩

/-- C10 counterexample: with the pp collection existing and listed, a
successful remove and add followed by a failed context registration end
the run with the collection PRESENT in the engine (the add re-created
it), not absent as claimed, while no counter is incremented; the command
trace shows remove, add and the attempted context registration. -/
theorem claim_C10_counterexample :
    "claude-pp-conversations" ∈ (createQmdCollections (some entriesPP) oracleCtxFail
        ["claude-pp-conversations"]).engine ∧
    (createQmdCollections (some entriesPP) oracleCtxFail
        ["claude-pp-conversations"]).created = 0 ∧
    (createQmdCollections (some entriesPP) oracleCtxFail
        ["claude-pp-conversations"]).recreated = 0 ∧
    (createQmdCollections (some entriesPP) oracleCtxFail
        ["claude-pp-conversations"]).ops
      = [Op.remove "claude-pp-conversations", Op.add "claude-pp-conversations",
         Op.context "claude-pp-conversations"] := by
  refine ⟨?_, ?_, ?_, ?_⟩ <;> decide

/-- C10 amended: the remove-then-recreate sequence is not atomic and its
failures are swallowed, but the final state of the collection depends on
which command failed: with the project's name in the queried existing set
and the remove succeeding, a failed add leaves the collection absent at
the end of the run, while a successful add followed by a failed context
registration leaves it present; in either failure case neither counter is
incremented for that project, so created + recreated is at most the
number of project subdirectories minus one, and in every run created +
recreated is at most the number of project subdirectories (the reconciler
itself is total and never throws). -/
theorem claim_C10_failure_handling (entries : List DirEntry) (o : Oracle)
    (engine0 : List String) (p : String)
    (hp : p ∈ projectsOf entries) (hnd : (projectsOf entries).Nodup)
    (hend : engine0.Nodup)
    (hex : collectionName p ∈ existingOf o)
    (hrm : o.removeOk (collectionName p) = true) :
    (o.addOk (collectionName p) = false →
        collectionName p ∉ (createQmdCollections (some entries) o engine0).engine) ∧
    (o.addOk (collectionName p) = true → o.contextOk (collectionName p) = false →
        collectionName p ∈ (createQmdCollections (some entries) o engine0).engine) ∧
    ((o.addOk (collectionName p) = false ∨ o.contextOk (collectionName p) = false) →
        (createQmdCollections (some entries) o engine0).created
            + (createQmdCollections (some entries) o engine0).recreated + 1
          ≤ (projectsOf entries).length) ∧
    ((createQmdCollections (some entries) o engine0).created
        + (createQmdCollections (some entries) o engine0).recreated
      ≤ (projectsOf entries).length) := by
  obtain ⟨l1, l2, hsplit⟩ := List.append_of_mem hp
  have hdef : createQmdCollections (some entries) o engine0
      = (projectsOf entries).foldl (recStep o (existingOf o)) ⟨0, 0, [], engine0⟩ := rfl
  have hnd' : (l1 ++ p :: l2).Nodup := hsplit ▸ hnd
  have hdisj := List.disjoint_of_nodup_append hnd'
  have hl1p : ∀ q ∈ l1, q ≠ p := fun q hq hqp => hdisj hq (by simp [hqp])
  have hpl2 : p ∉ l2 := by
    have h2 := hnd'.of_append_right
    exact (List.nodup_cons.mp h2).1
  have hl2p : ∀ q ∈ l2, q ≠ p := fun q hq hqp => hpl2 (hqp ▸ hq)
  have hl2n : ∀ q ∈ l2, collectionName q ≠ collectionName p :=
    fun q hq h => hl2p q hq (collectionName_inj h)
  have hfold : (projectsOf entries).foldl (recStep o (existingOf o)) ⟨0, 0, [], engine0⟩
      = l2.foldl (recStep o (existingOf o))
          (recStep o (existingOf o)
            (l1.foldl (recStep o (existingOf o)) ⟨0, 0, [], engine0⟩) p) := by
    rw [hsplit, List.foldl_append, List.foldl_cons]
  have hnd1 : (l1.foldl (recStep o (existingOf o)) ⟨0, 0, [], engine0⟩).engine.Nodup :=
    foldl_engine_nodup o (existingOf o) l1 ⟨0, 0, [], engine0⟩ hend
  have hlen : (projectsOf entries).length = l1.length + l2.length + 1 := by
    rw [hsplit]; simp; omega
  have hcnt1 : (l1.foldl (recStep o (existingOf o)) ⟨0, 0, [], engine0⟩).created
      + (l1.foldl (recStep o (existingOf o)) ⟨0, 0, [], engine0⟩).recreated
      ≤ l1.length := by
    have := foldl_counters_le o (existingOf o) l1 ⟨0, 0, [], engine0⟩
    simpa using this
  refine ⟨?_, ?_, ?_, ?_⟩
  · intro hadd
    rw [hdef, hfold]
    have hstep := recStep_self_addFail o (existingOf o)
      (l1.foldl (recStep o (existingOf o)) ⟨0, 0, [], engine0⟩) p hex hrm hadd hnd1
    intro hmem
    exact hstep.1 ((foldl_engine_mem_other o (existingOf o) (collectionName p) l2 _
      hl2n).mp hmem)
  · intro hadd hctx
    rw [hdef, hfold]
    have hstep := recStep_self_ctxFail o (existingOf o)
      (l1.foldl (recStep o (existingOf o)) ⟨0, 0, [], engine0⟩) p hex hrm hadd hctx
    exact (foldl_engine_mem_other o (existingOf o) (collectionName p) l2 _
      hl2n).mpr hstep.1
  · intro hfail
    rw [hdef, hfold]
    have hstep := recStep_counters_fail o (existingOf o)
      (l1.foldl (recStep o (existingOf o)) ⟨0, 0, [], engine0⟩) p hfail
    have hl2c := foldl_counters_le o (existingOf o) l2
      (recStep o (existingOf o)
        (l1.foldl (recStep o (existingOf o)) ⟨0, 0, [], engine0⟩) p)
    rw [hstep.1, hstep.2] at hl2c
    omega
  · rw [hdef]
    have := foldl_counters_le o (existingOf o) (projectsOf entries) ⟨0, 0, [], engine0⟩
    simpa using this

theorem claim_C10_failure_handling_witness :
    "pp" ∈ projectsOf entriesPP ∧
    (projectsOf entriesPP).Nodup ∧
    (["claude-pp-conversations"] : List String).Nodup ∧
    collectionName "pp" ∈ existingOf oracleAddFail ∧
    oracleAddFail.removeOk (collectionName "pp") = true ∧
    ((oracleAddFail.addOk (collectionName "pp") = false →
        collectionName "pp" ∉ (createQmdCollections (some entriesPP) oracleAddFail
          ["claude-pp-conversations"]).engine) ∧
      (oracleAddFail.addOk (collectionName "pp") = true →
        oracleAddFail.contextOk (collectionName "pp") = false →
        collectionName "pp" ∈ (createQmdCollections (some entriesPP) oracleAddFail
          ["claude-pp-conversations"]).engine) ∧
      ((oracleAddFail.addOk (collectionName "pp") = false ∨
          oracleAddFail.contextOk (collectionName "pp") = false) →
        (createQmdCollections (some entriesPP) oracleAddFail
            ["claude-pp-conversations"]).created
          + (createQmdCollections (some entriesPP) oracleAddFail
              ["claude-pp-conversations"]).recreated + 1
          ≤ (projectsOf entriesPP).length) ∧
      ((createQmdCollections (some entriesPP) oracleAddFail
          ["claude-pp-conversations"]).created
        + (createQmdCollections (some entriesPP) oracleAddFail
            ["claude-pp-conversations"]).recreated
        ≤ (projectsOf entriesPP).length)) :=
  ⟨by decide, by decide, by decide, by decide, rfl,
    claim_C10_failure_handling entriesPP oracleAddFail ["claude-pp-conversations"] "pp"
      (by decide) (by decide) (by decide) (by decide) rfl⟩
